import Mathlib

/-!
Shallow embedding of the Peak card game (card.py, player.py, rules.py,
game.py). Python lists are Lean lists; the deck's top is the end of the
list (Python `list.pop`). Machine state mutation is modelled by explicit
state passing. The random shuffle is modelled by letting the constructor
take the (already shuffled) deck as a parameter: theorems quantify over
all deck contents, which covers every permutation.
-/

namespace Peak

/-- card.py `CardType`: regular or peak. -/
inductive CardType where
  | regular
  | peak
  deriving DecidableEq

/-- card.py `Card`: a value (1-10 for regular, conventionally 0 for peak)
and a type. Python `__eq__` compares value and type, which is exactly
structural equality here. -/
structure Card where
  value : Int
  card_type : CardType
  deriving DecidableEq

/-- card.py `Card.is_peak_card`. -/
def Card.is_peak_card (c : Card) : Bool :=
  c.card_type == CardType.peak

/-- card.py `Card.can_finish_on` (the card-level variant without the
high-card flag; kept for completeness). -/
def Card.can_finish_on (c : Card) : Bool :=
  if c.is_peak_card then false
  else if 1 ≤ c.value ∧ c.value ≤ 4 then false
  else if 5 ≤ c.value ∧ c.value ≤ 6 then true
  else if 8 ≤ c.value ∧ c.value ≤ 10 then true
  else false

/-- card.py `Deck._create_deck`: regular cards 1-10 then 10 Peak cards
(value 0). -/
def create_deck : List Card :=
  ((List.range 10).map (fun i => Card.mk ((i : Int) + 1) CardType.regular)) ++
    (List.replicate 10 (Card.mk 0 CardType.peak))

/-- card.py `Deck.deal_card`: pop the last element (top of the deck), or
return none if the deck is empty. Returns the dealt card and the
remaining deck. -/
def deal_card (d : List Card) : Option Card × List Card :=
  if d.isEmpty then (none, d) else (d.getLast?, d.dropLast)

/-- card.py `Deck.deal_cards`: deal up to `count` cards, stopping early
when the deck runs out. Returns the dealt cards (in deal order) and the
remaining deck. -/
def deal_cards (d : List Card) (count : Nat) : List Card × List Card :=
  match count with
  | 0 => ([], d)
  | n + 1 =>
    match deal_card d with
    | (some c, d') =>
      let r := deal_cards d' n
      (c :: r.1, r.2)
    | (none, d') => ([], d')

/-- player.py `Player`: a name, an ordered hand, and the two one-way
flags. -/
structure Player where
  name : String
  hand : List Card
  is_disqualified : Bool
  has_finished : Bool
  deriving DecidableEq

/-- player.py `Player.__init__`: fresh player with empty hand and clear
flags. -/
def mkPlayer (name : String) : Player :=
  { name := name, hand := [], is_disqualified := false, has_finished := false }

/-- Default player used for out-of-range list reads (Python would raise;
all reachable states index in range). -/
def default_player : Player := mkPlayer ""

/-- player.py `Player.add_card`: append to the hand, then set the
disqualified flag if the hand now exceeds 20 cards. -/
def Player.add_card (p : Player) (c : Card) : Player :=
  let p' := { p with hand := p.hand ++ [c] }
  if p'.hand.length > 20 then { p' with is_disqualified := true } else p'

/-- player.py `Player.add_cards`: add one by one, in order. -/
def Player.add_cards (p : Player) (cs : List Card) : Player :=
  cs.foldl Player.add_card p

/-- player.py `Player.remove_card`: remove the first hand entry equal to
the card; report whether a removal occurred. -/
def Player.remove_card (p : Player) (c : Card) : Bool × Player :=
  if c ∈ p.hand then (true, { p with hand := p.hand.erase c }) else (false, p)

/-- player.py `Player.is_active`: neither disqualified nor finished. -/
def Player.is_active (p : Player) : Bool :=
  !p.is_disqualified && !p.has_finished

/-- player.py `Player.has_cards`. -/
def Player.has_cards (p : Player) : Bool :=
  p.hand.length > 0

namespace GameRules

/-- rules.py `GameRules.can_play_card`: Peak always legal; with no last
card any card legal; after a Peak any card legal; both regular legal iff
the values differ by at most 1. -/
def can_play_card (card : Card) (last_played_card : Option Card) : Bool :=
  if card.is_peak_card then true
  else
    match last_played_card with
    | none => true
    | some last =>
      if last.is_peak_card then true
      else if !card.is_peak_card && !last.is_peak_card then
        decide ((card.value - last.value).natAbs ≤ 1)
      else false

/-- rules.py `GameRules.can_finish_on_card`: never on Peak, never on 1-4,
always on 5-6, on 8-10 only with the high-card flag, never on 7. -/
def can_finish_on_card (card : Card) (high_card_played_this_round : Bool) : Bool :=
  if card.is_peak_card then false
  else if 1 ≤ card.value ∧ card.value ≤ 4 then false
  else if 5 ≤ card.value ∧ card.value ≤ 6 then true
  else if 8 ≤ card.value ∧ card.value ≤ 10 then high_card_played_this_round
  else if card.value == 7 then false
  else false

/-- rules.py `GameRules.should_disqualify_player`: over 20 cards in hand. -/
def should_disqualify_player (p : Player) : Bool :=
  p.hand.length > 20

/-- rules.py `GameRules.get_peak_card_penalty`. -/
def get_peak_card_penalty : Nat := 5

/-- rules.py `GameRules.is_high_value_card`: regular 8-10. -/
def is_high_value_card (card : Card) : Bool :=
  !card.is_peak_card && decide (8 ≤ card.value ∧ card.value ≤ 10)

/-- rules.py `GameRules.get_winner`: one active player wins; zero actives
means no winner; otherwise the first finished player in list order, if
any. -/
def get_winner (players : List Player) : Option Player :=
  let active_players := players.filter (fun p => p.is_active)
  if active_players.length == 1 then active_players.head?
  else if active_players.length == 0 then none
  else
    let finished_players := players.filter (fun p => p.has_finished)
    finished_players.head?

/-- rules.py `GameRules.is_valid_starting_hand_size`. -/
def is_valid_starting_hand_size : Nat := 7

/-- rules.py `GameRules.get_max_players`. -/
def get_max_players : Nat := 4

end GameRules

/-- game.py `PeakGame` state: the four players, the deck, the discard
pile (last element = last played card), turn pointer, flags and round
counter. `winner` stores a snapshot of the winning player (Python stores
a reference). -/
structure PeakGame where
  players : List Player
  deck : List Card
  discard_pile : List Card
  current_player_index : Nat
  game_over : Bool
  winner : Option Player
  high_card_played_this_round : Bool
  round_number : Nat
  deriving DecidableEq

namespace PeakGame

/-- game.py `PeakGame.__init__`: raises (here: `Except.error`) unless
exactly 4 player names are supplied; otherwise builds the initial state.
The freshly shuffled deck is a parameter (see the module comment). -/
def init (player_names : List String) (deck : List Card) : Except String PeakGame :=
  if player_names.length ≠ GameRules.get_max_players then
    Except.error "Peak requires exactly 4 players"
  else
    Except.ok
      { players := player_names.map mkPlayer
        deck := deck
        discard_pile := []
        current_player_index := 0
        game_over := false
        winner := none
        high_card_played_this_round := false
        round_number := 1 }

/-- Replace player `i` in the game state (Python mutates the `Player`
object in place; here we write the updated player back). -/
def set_player (g : PeakGame) (i : Nat) (p : Player) : PeakGame :=
  { g with players := g.players.set i p }

/-- game.py `PeakGame.get_current_player`. -/
def get_current_player (g : PeakGame) : Player :=
  g.players.getD g.current_player_index default_player

/-- game.py `PeakGame.get_last_played_card`: top of the discard pile. -/
def get_last_played_card (g : PeakGame) : Option Card :=
  g.discard_pile.getLast?

/-- Helper for game.py `PeakGame.setup_game`: deal the starting hand to
each player in roster order, threading the deck through. -/
def deal_to_players (ps : List Player) (d : List Card) : List Player × List Card :=
  match ps with
  | [] => ([], d)
  | p :: rest =>
    let r1 := deal_cards d GameRules.is_valid_starting_hand_size
    let r2 := deal_to_players rest r1.2
    ((p.add_cards r1.1) :: r2.1, r2.2)

/-- game.py `PeakGame.setup_game`: deal 7 cards to each player in turn
(later players receive fewer once the deck runs out). -/
def setup_game (g : PeakGame) : PeakGame :=
  let r := deal_to_players g.players g.deck
  { g with players := r.1, deck := r.2 }

/-- game.py `PeakGame._get_next_active_player`, returning the index of
the player instead of the object: scan one full lap starting after the
current player (wrapping, so the scan can end on the current player
themself). -/
def get_next_active_player_index (g : PeakGame) : Option Nat :=
  let n := g.players.length
  let start := (g.current_player_index + 1) % n
  (List.range n).findSome? fun i =>
    let idx := (start + i) % n
    if (g.players.getD idx default_player).is_active then some idx else none

/-- game.py `GameRules.get_winner` applied plus the no-active-players
check: game.py `PeakGame._check_game_over`. -/
def check_game_over (g : PeakGame) : PeakGame :=
  let g' :=
    match GameRules.get_winner g.players with
    | some w => { g with game_over := true, winner := some w }
    | none => g
  let active_players := g'.players.filter (fun p => p.is_active)
  if active_players.length == 0 then { g' with game_over := true } else g'

/-- The `for`-loop of game.py `PeakGame._next_player`: advance the index
up to `fuel` times; stop at the first active player. Returns the final
index (the index is mutated on every iteration, exactly as in Python)
and whether an active player was found. -/
def next_index_loop (players : List Player) (idx : Nat) : Nat → Nat × Bool
  | 0 => (idx, false)
  | k + 1 =>
    let idx' := (idx + 1) % players.length
    if (players.getD idx' default_player).is_active then (idx', true)
    else next_index_loop players idx' k

/-- game.py `PeakGame._next_player`: scan for the next active player; if
none exists in a full lap, finalize game over without advancing further;
if the new index wrapped (≤ the old one), start a new round and clear
the high-card flag. -/
def next_player (g : PeakGame) : PeakGame :=
  let original_index := g.current_player_index
  let r := next_index_loop g.players original_index g.players.length
  if !r.2 then check_game_over { g with current_player_index := r.1 }
  else
    let g' := { g with current_player_index := r.1 }
    if r.1 ≤ original_index then
      { g' with round_number := g'.round_number + 1, high_card_played_this_round := false }
    else g'

/-- Add the dealt cards to a player and then re-check disqualification,
as done after both the Peak penalty (game.py `_handle_peak_card`) and a
draw (game.py `draw_card`, with a single card). -/
def penalize (p : Player) (cs : List Card) : Player :=
  let np := p.add_cards cs
  if GameRules.should_disqualify_player np then { np with is_disqualified := true }
  else np

/-- game.py `PeakGame._handle_peak_card`: deal the peak penalty
(5 cards, fewer if the deck runs short) to the next active player, then
re-check disqualification. -/
def handle_peak_card (g : PeakGame) : PeakGame :=
  let penalty_cards := GameRules.get_peak_card_penalty
  match get_next_active_player_index g with
  | none => g
  | some j =>
    let r := deal_cards g.deck penalty_cards
    set_player { g with deck := r.2 } j (penalize (g.players.getD j default_player) r.1)

/-- The state-mutating prefix of game.py `PeakGame.play_card` after the
three rejection checks have passed: remove the card from the current
player's hand, append it to the discard pile, set the high-card flag for
a regular 8-10, and run the Peak-card effect when the card is Peak. -/
def play_stage (g : PeakGame) (card : Card) : PeakGame :=
  let p1 := ((get_current_player g).remove_card card).2
  let g1 := set_player g g.current_player_index p1
  let g2 := { g1 with discard_pile := g1.discard_pile ++ [card] }
  let g3 :=
    if GameRules.is_high_value_card card then
      { g2 with high_card_played_this_round := true }
    else g2
  if card.is_peak_card then handle_peak_card g3 else g3

/-- The remainder of game.py `PeakGame.play_card` after `play_stage`:
the finish attempt (marking the player finished on a legal finish,
dealing one penalty card on an illegal one) and the turn advancement. -/
def play_card_main (g : PeakGame) (card : Card) : Bool × PeakGame :=
  let g4 := play_stage g card
  let player4 := get_current_player g4
  if !player4.has_cards then
    if GameRules.can_finish_on_card card g4.high_card_played_this_round then
      let g5 := set_player g4 g4.current_player_index { player4 with has_finished := true }
      (true, check_game_over g5)
    else
      let g5 :=
        match deal_card g4.deck with
        | (some c, d') => set_player { g4 with deck := d' } g4.current_player_index (player4.add_card c)
        | (none, _) => g4
      (true, next_player g5)
  else (true, next_player g4)

/-- game.py `PeakGame.play_card`. The acting player is identified by
index (Python compares object identity with the current player). Returns
the Python boolean result together with the post-state. -/
def play_card (g : PeakGame) (pi : Nat) (card : Card) : Bool × PeakGame :=
  if pi ≠ g.current_player_index then (false, g)
  else if card ∉ (get_current_player g).hand then (false, g)
  else if !GameRules.can_play_card card (get_last_played_card g) then (false, g)
  else play_card_main g card

/-- game.py `PeakGame.draw_card`: only the current player may draw; an
empty deck is a failure that changes nothing (the turn does not
advance); otherwise add the card, re-check disqualification, advance. -/
def draw_card (g : PeakGame) (pi : Nat) : Bool × PeakGame :=
  if pi ≠ g.current_player_index then (false, g)
  else
    match deal_card g.deck with
    | (some c, d') =>
      let g' := set_player { g with deck := d' } g.current_player_index
        (penalize (get_current_player g) [c])
      (true, next_player g')
    | (none, _) => (false, g)

end PeakGame

/-! ## Basic lemmas -/

theorem is_peak_card_iff (c : Card) :
    c.is_peak_card = true ↔ c.card_type = CardType.peak := by
  simp [Card.is_peak_card]

theorem is_peak_card_regular (v : Int) :
    (Card.mk v CardType.regular).is_peak_card = false := rfl

theorem is_peak_card_peak (v : Int) :
    (Card.mk v CardType.peak).is_peak_card = true := rfl

/-! ## Claim theorems -/

/-- C1: `can_play_card` returns true if the card is Peak; true if the
last-discarded card is absent or is Peak; when both cards are Regular it
returns true iff their values differ by at most 1; and the two scenario
evaluations `canPlay(5R, 6R) = true`, `canPlay(5R, 7R) = false` hold. -/
theorem c1_can_play_card_spec :
    (∀ (c : Card) (l : Option Card), c.card_type = CardType.peak →
      GameRules.can_play_card c l = true) ∧
    (∀ c : Card, GameRules.can_play_card c none = true) ∧
    (∀ c l : Card, l.card_type = CardType.peak →
      GameRules.can_play_card c (some l) = true) ∧
    (∀ c l : Card, c.card_type = CardType.regular → l.card_type = CardType.regular →
      (GameRules.can_play_card c (some l) = true ↔ (c.value - l.value).natAbs ≤ 1)) ∧
    GameRules.can_play_card (Card.mk 5 CardType.regular)
      (some (Card.mk 6 CardType.regular)) = true ∧
    GameRules.can_play_card (Card.mk 5 CardType.regular)
      (some (Card.mk 7 CardType.regular)) = false := by
  refine ⟨?_, ?_, ?_, ?_, by decide, by decide⟩
  · intro c l hc
    simp [GameRules.can_play_card, Card.is_peak_card, hc]
  · intro c
    cases hc : c.is_peak_card <;> simp [GameRules.can_play_card, hc]
  · intro c l hl
    cases hc : c.is_peak_card <;>
      simp [GameRules.can_play_card, hc, Card.is_peak_card, hl]
  · intro c l hc hl
    have hc' : c.is_peak_card = false := by simp [Card.is_peak_card, hc]
    have hl' : l.is_peak_card = false := by simp [Card.is_peak_card, hl]
    simp [GameRules.can_play_card, hc', hl']

/-- Witness for C1: the both-Regular clause applied at values 4 and 5. -/
theorem c1_can_play_card_witness :
    GameRules.can_play_card (Card.mk 4 CardType.regular)
      (some (Card.mk 5 CardType.regular)) = true :=
  (c1_can_play_card_spec.2.2.2.1 (Card.mk 4 CardType.regular)
    (Card.mk 5 CardType.regular) rfl rfl).mpr (by decide)

/-- C2: `can_finish_on_card` is false on Peak cards; false on Regular
values 1-4; true on 5-6; false on 7; equals the high-card flag on 8-10;
and `canFinishOn(9R, false) = false`, `canFinishOn(9R, true) = true`. -/
theorem c2_can_finish_on_card_spec :
    (∀ (v : Int) (b : Bool),
      GameRules.can_finish_on_card (Card.mk v CardType.peak) b = false) ∧
    (∀ (v : Int) (b : Bool), 1 ≤ v → v ≤ 4 →
      GameRules.can_finish_on_card (Card.mk v CardType.regular) b = false) ∧
    (∀ (v : Int) (b : Bool), 5 ≤ v → v ≤ 6 →
      GameRules.can_finish_on_card (Card.mk v CardType.regular) b = true) ∧
    (∀ b : Bool, GameRules.can_finish_on_card (Card.mk 7 CardType.regular) b = false) ∧
    (∀ (v : Int) (b : Bool), 8 ≤ v → v ≤ 10 →
      GameRules.can_finish_on_card (Card.mk v CardType.regular) b = b) ∧
    GameRules.can_finish_on_card (Card.mk 9 CardType.regular) false = false ∧
    GameRules.can_finish_on_card (Card.mk 9 CardType.regular) true = true := by
  refine ⟨?_, ?_, ?_, by decide, ?_, by decide, by decide⟩
  · intro v b
    simp [GameRules.can_finish_on_card, is_peak_card_peak]
  · intro v b h1 h2
    simp only [GameRules.can_finish_on_card, is_peak_card_regular, Bool.false_eq_true,
      if_false]
    rw [if_pos ⟨h1, h2⟩]
  · intro v b h1 h2
    simp only [GameRules.can_finish_on_card, is_peak_card_regular, Bool.false_eq_true,
      if_false]
    rw [if_neg (by omega), if_pos ⟨h1, h2⟩]
  · intro v b h1 h2
    simp only [GameRules.can_finish_on_card, is_peak_card_regular, Bool.false_eq_true,
      if_false]
    rw [if_neg (by omega), if_neg (by omega), if_pos ⟨h1, h2⟩]

/-- Witness for C2: the 1-4 clause applied at value 3 with the flag set. -/
theorem c2_can_finish_on_card_witness :
    GameRules.can_finish_on_card (Card.mk 3 CardType.regular) true = false :=
  c2_can_finish_on_card_spec.2.1 3 true (by decide) (by decide)

/-- C3: `get_winner` returns the unique active player when exactly one
player is active; none when zero players are active; otherwise the first
player (in roster order) with the finished flag, or none when there is
no such player; and it is deterministic. -/
theorem c3_get_winner_spec (players : List Player) :
    ((players.filter (fun p => p.is_active)).length = 1 →
      ∃ p, players.filter (fun p => p.is_active) = [p] ∧
        GameRules.get_winner players = some p) ∧
    ((players.filter (fun p => p.is_active)).length = 0 →
      GameRules.get_winner players = none) ∧
    (2 ≤ (players.filter (fun p => p.is_active)).length →
      GameRules.get_winner players =
        (players.filter (fun p => p.has_finished)).head?) ∧
    (∀ r1 r2 : Player, GameRules.get_winner players = some r1 →
      GameRules.get_winner players = some r2 → r1 = r2) := by
  refine ⟨?_, ?_, ?_, ?_⟩
  · intro h1
    obtain ⟨p, hp⟩ := List.length_eq_one.mp h1
    exact ⟨p, hp, by simp [GameRules.get_winner, hp]⟩
  · intro h0
    have hp := List.length_eq_zero.mp h0
    simp [GameRules.get_winner, hp]
  · intro h2
    simp only [GameRules.get_winner]
    rw [if_neg (by simp only [beq_iff_eq]; omega),
      if_neg (by simp only [beq_iff_eq]; omega)]
  · intro r1 r2 h1 h2
    rw [h1] at h2
    exact Option.some_inj.mp h2

/-- Witness for C3: a roster with zero active players has no winner. -/
theorem c3_get_winner_witness :
    GameRules.get_winner
      [{ name := "A", hand := [], is_disqualified := true, has_finished := false }] =
      none :=
  (c3_get_winner_spec _).2.1 (by decide)

/-- C6 counterexample: construction with four names that are duplicated
and partly empty still succeeds — the constructor validates only the
player count, contradicting the claim that duplicate or empty names are
a fatal construction error. -/
theorem c6_init_counterexample :
    ∃ g, PeakGame.init ["A", "A", "A", ""] create_deck = Except.ok g :=
  ⟨_, rfl⟩

/-- C6 (amended): construction succeeds exactly when given 4 player
names; name distinctness and non-emptiness are not validated. -/
theorem c6_init_spec (player_names : List String) (deck : List Card) :
    (∃ g, PeakGame.init player_names deck = Except.ok g) ↔
      player_names.length = 4 := by
  constructor
  · intro ⟨g, hg⟩
    by_contra h
    simp [PeakGame.init, GameRules.get_max_players, h] at hg
  · intro h
    unfold PeakGame.init
    rw [if_neg (by simp [GameRules.get_max_players, h])]
    exact ⟨_, rfl⟩

/-- A small concrete mid-game state used by witnesses: player A (index 0)
to move, one card in each hand, two cards in the deck. -/
def sample_game : PeakGame :=
  { players :=
      [{ name := "A", hand := [Card.mk 4 CardType.regular], is_disqualified := false,
         has_finished := false },
       { name := "B", hand := [Card.mk 5 CardType.regular], is_disqualified := false,
         has_finished := false },
       { name := "C", hand := [Card.mk 6 CardType.regular], is_disqualified := false,
         has_finished := false },
       { name := "D", hand := [Card.mk 7 CardType.regular], is_disqualified := false,
         has_finished := false }]
    deck := [Card.mk 1 CardType.regular, Card.mk 2 CardType.regular]
    discard_pile := [Card.mk 3 CardType.regular]
    current_player_index := 0
    game_over := false
    winner := none
    high_card_played_this_round := false
    round_number := 1 }

/-- C7: every rejected `play_card` (wrong player, card not in hand, or
illegal against the discard top) and every failed `draw_card` (wrong
player or empty deck) returns false and leaves the whole game state —
deck, hands, discard pile, turn pointer, round and flags — unchanged. -/
theorem c7_rejection_spec (g : PeakGame) (pi : Nat) (card : Card) :
    (pi ≠ g.current_player_index ∨ card ∉ (PeakGame.get_current_player g).hand ∨
        GameRules.can_play_card card (PeakGame.get_last_played_card g) = false →
      PeakGame.play_card g pi card = (false, g)) ∧
    (pi ≠ g.current_player_index ∨ g.deck = [] →
      PeakGame.draw_card g pi = (false, g)) := by
  constructor
  · intro h
    by_cases h1 : pi = g.current_player_index
    · rcases h with h' | h' | h'
      · exact absurd h1 h'
      · simp [PeakGame.play_card, h1, h']
      · by_cases h2 : card ∈ (PeakGame.get_current_player g).hand
        · simp [PeakGame.play_card, h1, h2, h']
        · simp [PeakGame.play_card, h1, h2]
    · simp [PeakGame.play_card, h1]
  · intro h
    rcases h with h' | h'
    · simp [PeakGame.draw_card, h']
    · by_cases h1 : pi = g.current_player_index
      · simp [PeakGame.draw_card, h1, h', deal_card]
      · simp [PeakGame.draw_card, h1]

/-- Witness for C7: in `sample_game` it is player 0's turn, so a play
attempt by player 1 is rejected with the state unchanged. -/
theorem c7_rejection_witness :
    PeakGame.play_card sample_game 1 (Card.mk 5 CardType.regular) =
      (false, sample_game) :=
  (c7_rejection_spec sample_game 1 (Card.mk 5 CardType.regular)).1
    (Or.inl (by decide))

/-! ## Component-preservation lemmas for the engine helpers -/

theorem check_game_over_players (g : PeakGame) :
    (PeakGame.check_game_over g).players = g.players := by
  unfold PeakGame.check_game_over
  cases GameRules.get_winner g.players <;> dsimp only <;> split <;> rfl

theorem check_game_over_deck (g : PeakGame) :
    (PeakGame.check_game_over g).deck = g.deck := by
  unfold PeakGame.check_game_over
  cases GameRules.get_winner g.players <;> dsimp only <;> split <;> rfl

theorem check_game_over_discard (g : PeakGame) :
    (PeakGame.check_game_over g).discard_pile = g.discard_pile := by
  unfold PeakGame.check_game_over
  cases GameRules.get_winner g.players <;> dsimp only <;> split <;> rfl

theorem check_game_over_index (g : PeakGame) :
    (PeakGame.check_game_over g).current_player_index = g.current_player_index := by
  unfold PeakGame.check_game_over
  cases GameRules.get_winner g.players <;> dsimp only <;> split <;> rfl

theorem next_player_players (g : PeakGame) :
    (PeakGame.next_player g).players = g.players := by
  unfold PeakGame.next_player
  dsimp only
  split
  · rw [check_game_over_players]
  · split <;> rfl

theorem next_player_deck (g : PeakGame) :
    (PeakGame.next_player g).deck = g.deck := by
  unfold PeakGame.next_player
  dsimp only
  split
  · rw [check_game_over_deck]
  · split <;> rfl

theorem next_player_discard (g : PeakGame) :
    (PeakGame.next_player g).discard_pile = g.discard_pile := by
  unfold PeakGame.next_player
  dsimp only
  split
  · rw [check_game_over_discard]
  · split <;> rfl

theorem handle_peak_card_discard (g : PeakGame) :
    (PeakGame.handle_peak_card g).discard_pile = g.discard_pile := by
  unfold PeakGame.handle_peak_card
  cases PeakGame.get_next_active_player_index g <;> rfl

theorem handle_peak_card_index (g : PeakGame) :
    (PeakGame.handle_peak_card g).current_player_index = g.current_player_index := by
  unfold PeakGame.handle_peak_card
  cases PeakGame.get_next_active_player_index g <;> rfl

theorem handle_peak_card_high (g : PeakGame) :
    (PeakGame.handle_peak_card g).high_card_played_this_round =
      g.high_card_played_this_round := by
  unfold PeakGame.handle_peak_card
  cases PeakGame.get_next_active_player_index g <;> rfl

theorem check_game_over_flag_mono {g : PeakGame} (h : g.game_over = true) :
    (PeakGame.check_game_over g).game_over = true := by
  unfold PeakGame.check_game_over
  cases GameRules.get_winner g.players <;> dsimp only <;> split <;> simp [h]

theorem next_player_flag_mono {g : PeakGame} (h : g.game_over = true) :
    (PeakGame.next_player g).game_over = true := by
  unfold PeakGame.next_player
  dsimp only
  split
  · exact check_game_over_flag_mono h
  · split <;> simp [h]

theorem handle_peak_card_flag (g : PeakGame) :
    (PeakGame.handle_peak_card g).game_over = g.game_over := by
  unfold PeakGame.handle_peak_card
  cases PeakGame.get_next_active_player_index g <;> rfl

/-! ## C5: the terminal flag does not block the operations -/

/-- A concrete terminal state: `sample_game` with the game declared over. -/
def terminal_state : PeakGame := { sample_game with game_over := true }

/-- C5 counterexample: in the terminal state `terminal_state`
(`gameOver = true`), a `draw_card` by the current player mutates the
game state, contradicting the claim that no further mutation is
possible once the game is over. -/
theorem c5_game_over_counterexample :
    terminal_state.game_over = true ∧
      (PeakGame.draw_card terminal_state 0).2 ≠ terminal_state :=
  ⟨rfl, by decide⟩

theorem set_player_deck (g : PeakGame) (i : Nat) (p : Player) :
    (PeakGame.set_player g i p).deck = g.deck := rfl

theorem set_player_discard (g : PeakGame) (i : Nat) (p : Player) :
    (PeakGame.set_player g i p).discard_pile = g.discard_pile := rfl

theorem set_player_index (g : PeakGame) (i : Nat) (p : Player) :
    (PeakGame.set_player g i p).current_player_index = g.current_player_index := rfl

theorem set_player_flag (g : PeakGame) (i : Nat) (p : Player) :
    (PeakGame.set_player g i p).game_over = g.game_over := rfl

theorem deal_card_nil : deal_card [] = (none, []) := rfl

theorem deal_card_concat (l : List Card) (a : Card) :
    deal_card (l ++ [a]) = (some a, l) := by
  simp [deal_card]

theorem play_stage_discard (g : PeakGame) (card : Card) :
    (PeakGame.play_stage g card).discard_pile = g.discard_pile ++ [card] := by
  unfold PeakGame.play_stage
  dsimp only
  split <;> split <;> simp [handle_peak_card_discard, set_player_discard]

theorem play_stage_flag (g : PeakGame) (card : Card) :
    (PeakGame.play_stage g card).game_over = g.game_over := by
  unfold PeakGame.play_stage
  dsimp only
  split <;> split <;> simp [handle_peak_card_flag, set_player_flag]

theorem play_stage_index (g : PeakGame) (card : Card) :
    (PeakGame.play_stage g card).current_player_index = g.current_player_index := by
  unfold PeakGame.play_stage
  dsimp only
  split <;> split <;> simp [handle_peak_card_index, set_player_index]

theorem play_card_main_fst (g : PeakGame) (card : Card) :
    (PeakGame.play_card_main g card).1 = true := by
  unfold PeakGame.play_card_main
  dsimp only
  split
  · split <;> rfl
  · rfl

theorem play_card_main_discard (g : PeakGame) (card : Card) :
    (PeakGame.play_card_main g card).2.discard_pile =
      (PeakGame.play_stage g card).discard_pile := by
  unfold PeakGame.play_card_main
  dsimp only
  split
  · split
    · rw [check_game_over_discard, set_player_discard]
    · rw [next_player_discard]
      split
      · rw [set_player_discard]
      · rfl
  · rw [next_player_discard]

theorem play_card_main_flag_mono (g : PeakGame) (card : Card)
    (h : g.game_over = true) :
    (PeakGame.play_card_main g card).2.game_over = true := by
  have hst : (PeakGame.play_stage g card).game_over = true := by
    rw [play_stage_flag]; exact h
  unfold PeakGame.play_card_main
  dsimp only
  split
  · split
    · apply check_game_over_flag_mono
      rw [set_player_flag]
      exact hst
    · apply next_player_flag_mono
      split
      · rw [set_player_flag]
        exact hst
      · exact hst
  · exact next_player_flag_mono hst

/-- On a passed rejection gauntlet, `play_card` runs the mutation body. -/
theorem play_card_eq_main (g : PeakGame) (pi : Nat) (card : Card)
    (h1 : pi = g.current_player_index)
    (h2 : card ∈ (PeakGame.get_current_player g).hand)
    (h3 : GameRules.can_play_card card (PeakGame.get_last_played_card g) = true) :
    PeakGame.play_card g pi card = PeakGame.play_card_main g card := by
  unfold PeakGame.play_card
  rw [if_neg (not_not_intro h1), if_neg (not_not_intro h2), if_neg (by simp [h3])]

/-- C5 (amended): the terminal flag is never consulted by `play_card` or
`draw_card`, so reaching `gameOver = true` does not prevent further
mutation: in any terminal state a legal play by the current player still
succeeds and appends the card to the discard pile, and a draw by the
current player from a non-empty deck still succeeds and removes the top
card of the deck; the flag itself remains true. -/
theorem c5_terminal_not_enforced (g : PeakGame) (pi : Nat) (card : Card)
    (hover : g.game_over = true) :
    (pi = g.current_player_index →
      card ∈ (PeakGame.get_current_player g).hand →
      GameRules.can_play_card card (PeakGame.get_last_played_card g) = true →
      (PeakGame.play_card g pi card).1 = true ∧
      (PeakGame.play_card g pi card).2.discard_pile = g.discard_pile ++ [card] ∧
      (PeakGame.play_card g pi card).2.game_over = true) ∧
    (pi = g.current_player_index → g.deck ≠ [] →
      (PeakGame.draw_card g pi).1 = true ∧
      (PeakGame.draw_card g pi).2.deck = g.deck.dropLast ∧
      (PeakGame.draw_card g pi).2.game_over = true) := by
  constructor
  · intro h1 h2 h3
    rw [play_card_eq_main g pi card h1 h2 h3]
    refine ⟨play_card_main_fst g card, ?_, play_card_main_flag_mono g card hover⟩
    rw [play_card_main_discard, play_stage_discard]
  · intro h1 hd
    obtain ⟨l, a, hla⟩ := (List.eq_nil_or_concat g.deck).resolve_left hd
    rw [List.concat_eq_append] at hla
    unfold PeakGame.draw_card
    rw [if_neg (not_not_intro h1)]
    rw [hla, deal_card_concat]
    refine ⟨rfl, ?_, ?_⟩
    · rw [next_player_deck, set_player_deck]
      simp [List.dropLast_concat]
    · exact next_player_flag_mono hover

/-! ## Card-count lemmas for dealing and hands -/

theorem deal_cards_fst_length (n : Nat) :
    ∀ d : List Card, (deal_cards d n).1.length = min n d.length := by
  induction n with
  | zero => intro d; simp [deal_cards]
  | succ n ih =>
    intro d
    rcases List.eq_nil_or_concat d with rfl | ⟨l, a, rfl⟩
    · simp [deal_cards, deal_card_nil]
    · rw [List.concat_eq_append]
      simp only [deal_cards, deal_card_concat, List.length_cons, List.length_append,
        List.length_nil, ih l]
      omega

theorem deal_cards_snd_length (n : Nat) :
    ∀ d : List Card, (deal_cards d n).2.length = d.length - n := by
  induction n with
  | zero => intro d; simp [deal_cards]
  | succ n ih =>
    intro d
    rcases List.eq_nil_or_concat d with rfl | ⟨l, a, rfl⟩
    · simp [deal_cards, deal_card_nil]
    · rw [List.concat_eq_append]
      simp only [deal_cards, deal_card_concat, ih l]
      simp only [List.length_append, List.length_cons, List.length_nil]
      omega

theorem add_card_hand (p : Player) (c : Card) :
    (p.add_card c).hand = p.hand ++ [c] := by
  unfold Player.add_card
  dsimp only
  split <;> rfl

theorem add_card_name (p : Player) (c : Card) :
    (p.add_card c).name = p.name := by
  unfold Player.add_card
  dsimp only
  split <;> rfl

theorem add_card_finished (p : Player) (c : Card) :
    (p.add_card c).has_finished = p.has_finished := by
  unfold Player.add_card
  dsimp only
  split <;> rfl

theorem add_cards_hand (cs : List Card) :
    ∀ p : Player, (p.add_cards cs).hand = p.hand ++ cs := by
  induction cs with
  | nil => intro p; simp [Player.add_cards]
  | cons c cs ih =>
    intro p
    show ((p.add_card c).add_cards cs).hand = p.hand ++ (c :: cs)
    rw [ih, add_card_hand, List.append_assoc]
    rfl

theorem add_cards_length (cs : List Card) (p : Player) :
    (p.add_cards cs).hand.length = p.hand.length + cs.length := by
  rw [add_cards_hand]
  exact List.length_append _ _

/-- Witness for C5 (amended): in `terminal_state` the current player's
draw succeeds and shortens the deck even though the game is over. -/
theorem c5_terminal_witness :
    (PeakGame.draw_card terminal_state 0).1 = true ∧
    (PeakGame.draw_card terminal_state 0).2.deck = terminal_state.deck.dropLast ∧
    (PeakGame.draw_card terminal_state 0).2.game_over = true :=
  (c5_terminal_not_enforced terminal_state 0 (Card.mk 0 CardType.peak) rfl).2
    rfl (by decide)

/-- C9: from a fresh game (4 players with empty hands, any 20-card
deck), `setup_game` asks for 7 cards per player in roster order via
`deal_cards`; only 20 cards exist, so the players receive 7, 7, 6 and 0
cards respectively and the deck is empty afterwards. -/
theorem c9_setup_spec (names : List String) (deck : List Card) (g : PeakGame)
    (hok : PeakGame.init names deck = Except.ok g) (hd : deck.length = 20) :
    (PeakGame.setup_game g).players.map (fun p => p.hand.length) = [7, 7, 6, 0] ∧
    (PeakGame.setup_game g).deck = [] := by
  unfold PeakGame.init at hok
  split at hok
  · exact absurd hok (by simp)
  · rename_i h4
    have h4' := not_not.mp h4
    rcases names with _ | ⟨a, _ | ⟨b, _ | ⟨c, _ | ⟨d2, _ | ⟨e, t⟩⟩⟩⟩⟩ <;>
      first
        | (exfalso
           simp only [List.length_nil, List.length_cons, GameRules.get_max_players] at h4'
           omega)
        | skip
    injection hok with hok
    subst hok
    have f1 : (deal_cards deck 7).1.length = 7 := by
      rw [deal_cards_fst_length]; omega
    have s1 : (deal_cards deck 7).2.length = 13 := by
      rw [deal_cards_snd_length]; omega
    have f2 : (deal_cards (deal_cards deck 7).2 7).1.length = 7 := by
      rw [deal_cards_fst_length, s1]; omega
    have s2 : (deal_cards (deal_cards deck 7).2 7).2.length = 6 := by
      rw [deal_cards_snd_length, s1]
    have f3 :
        (deal_cards (deal_cards (deal_cards deck 7).2 7).2 7).1.length = 6 := by
      rw [deal_cards_fst_length, s2]; omega
    have s3 :
        (deal_cards (deal_cards (deal_cards deck 7).2 7).2 7).2.length = 0 := by
      rw [deal_cards_snd_length, s2]
    have f4 :
        (deal_cards (deal_cards (deal_cards (deal_cards deck 7).2 7).2 7).2 7).1.length
          = 0 := by
      rw [deal_cards_fst_length, s3]; omega
    have s4 :
        (deal_cards (deal_cards (deal_cards (deal_cards deck 7).2 7).2 7).2 7).2.length
          = 0 := by
      rw [deal_cards_snd_length, s3]
    constructor
    · simp only [PeakGame.setup_game, PeakGame.deal_to_players,
        GameRules.is_valid_starting_hand_size, List.map_cons, List.map_nil,
        List.map, add_cards_length, mkPlayer, List.length_nil, Nat.zero_add,
        f1, f2, f3, f4]
    · apply List.eq_nil_of_length_eq_zero
      simp only [PeakGame.setup_game, PeakGame.deal_to_players,
        GameRules.is_valid_starting_hand_size]
      exact s4

/-- The concrete freshly constructed game on names A, B, C, D with the
canonical (unshuffled) deck. -/
def initial_game : PeakGame :=
  { players := [mkPlayer "A", mkPlayer "B", mkPlayer "C", mkPlayer "D"]
    deck := create_deck
    discard_pile := []
    current_player_index := 0
    game_over := false
    winner := none
    high_card_played_this_round := false
    round_number := 1 }

/-- Witness for C9: the concrete fresh game deals 7, 7, 6, 0. -/
theorem c9_setup_witness :
    (PeakGame.setup_game initial_game).players.map (fun p => p.hand.length) =
        [7, 7, 6, 0] ∧
      (PeakGame.setup_game initial_game).deck = [] :=
  c9_setup_spec ["A", "B", "C", "D"] create_deck initial_game rfl rfl

/-! ## Card conservation (C4) -/

/-- Total number of cards held in players' hands. -/
def hand_sizes_sum (ps : List Player) : Nat :=
  (ps.map (fun p => p.hand.length)).sum

/-- Total number of cards in the game: deck + hands + discard pile. -/
def card_count (g : PeakGame) : Nat :=
  g.deck.length + hand_sizes_sum g.players + g.discard_pile.length

theorem deal_cards_total (n : Nat) (d : List Card) :
    (deal_cards d n).1.length + (deal_cards d n).2.length = d.length := by
  rw [deal_cards_fst_length, deal_cards_snd_length]
  omega

theorem hand_sizes_sum_set (ps : List Player) :
    ∀ (i : Nat) (p : Player), i < ps.length →
      hand_sizes_sum (ps.set i p) + (ps.getD i default_player).hand.length =
        hand_sizes_sum ps + p.hand.length := by
  induction ps with
  | nil => intro i p h; simp at h
  | cons q t ih =>
    intro i p h
    cases i with
    | zero => simp [hand_sizes_sum]; omega
    | succ i =>
      have hi : i < t.length := by
        simpa using Nat.lt_of_succ_lt_succ h
      have hrec := ih i p hi
      show hand_sizes_sum (q :: t.set i p) +
          ((q :: t).getD (i + 1) default_player).hand.length =
        hand_sizes_sum (q :: t) + p.hand.length
      simp only [hand_sizes_sum, List.map_cons, List.sum_cons,
        List.getD_cons_succ] at hrec ⊢
      omega

theorem get_current_player_eq (g : PeakGame) :
    PeakGame.get_current_player g =
      g.players.getD g.current_player_index default_player := rfl

theorem get_next_active_some {g : PeakGame} {j : Nat}
    (h : PeakGame.get_next_active_player_index g = some j) :
    j < g.players.length ∧
      (g.players.getD j default_player).is_active = true := by
  simp only [PeakGame.get_next_active_player_index,
    List.findSome?_eq_some_iff] at h
  obtain ⟨l1, a, l2, hsplit, hf, -⟩ := h
  have hn : 0 < g.players.length := by
    have hlen := congrArg List.length hsplit
    simp [List.length_append] at hlen
    omega
  split at hf
  · rename_i hact
    injection hf with hf
    subst hf
    exact ⟨Nat.mod_lt _ hn, hact⟩
  · cases hf

theorem next_index_loop_lt (ps : List Player) (hn : 0 < ps.length) :
    ∀ (fuel idx : Nat), 0 < fuel →
      (PeakGame.next_index_loop ps idx fuel).1 < ps.length := by
  intro fuel
  induction fuel with
  | zero => intro idx h; exact absurd h (by omega)
  | succ k ih =>
    intro idx h
    unfold PeakGame.next_index_loop
    dsimp only
    split
    · exact Nat.mod_lt _ hn
    · cases k with
      | zero =>
        unfold PeakGame.next_index_loop
        exact Nat.mod_lt _ hn
      | succ k' => exact ih _ (by omega)

theorem next_player_index_lt (g : PeakGame) (hn : 0 < g.players.length) :
    (PeakGame.next_player g).current_player_index < g.players.length := by
  unfold PeakGame.next_player
  dsimp only
  split
  · rw [check_game_over_index]
    exact next_index_loop_lt g.players hn _ _ hn
  · split
    · exact next_index_loop_lt g.players hn _ _ hn
    · exact next_index_loop_lt g.players hn _ _ hn

theorem card_count_check_game_over (g : PeakGame) :
    card_count (PeakGame.check_game_over g) = card_count g := by
  unfold card_count
  rw [check_game_over_players, check_game_over_deck, check_game_over_discard]

theorem card_count_next_player (g : PeakGame) :
    card_count (PeakGame.next_player g) = card_count g := by
  unfold card_count
  rw [next_player_players, next_player_deck, next_player_discard]

theorem check_game_over_players_length (g : PeakGame) :
    (PeakGame.check_game_over g).players.length = g.players.length := by
  rw [check_game_over_players]

theorem next_player_players_length (g : PeakGame) :
    (PeakGame.next_player g).players.length = g.players.length := by
  rw [next_player_players]

theorem disqualify_recheck_hand (np : Player) :
    (if GameRules.should_disqualify_player np then
        { np with is_disqualified := true }
      else np).hand = np.hand := by
  split <;> rfl

theorem penalize_hand (p : Player) (cs : List Card) :
    (PeakGame.penalize p cs).hand = p.hand ++ cs := by
  unfold PeakGame.penalize
  dsimp only
  rw [disqualify_recheck_hand, add_cards_hand]

theorem penalize_hand_length (p : Player) (cs : List Card) :
    (PeakGame.penalize p cs).hand.length = p.hand.length + cs.length := by
  rw [penalize_hand, List.length_append]

theorem handle_peak_card_count (g : PeakGame) :
    card_count (PeakGame.handle_peak_card g) = card_count g := by
  unfold PeakGame.handle_peak_card
  dsimp only
  cases hj : PeakGame.get_next_active_player_index g with
  | none => rfl
  | some j =>
    obtain ⟨hjlt, -⟩ := get_next_active_some hj
    have hdeal := deal_cards_total GameRules.get_peak_card_penalty g.deck
    have hset := hand_sizes_sum_set g.players j
      (PeakGame.penalize (g.players.getD j default_player)
        (deal_cards g.deck GameRules.get_peak_card_penalty).1) hjlt
    rw [penalize_hand_length] at hset
    unfold card_count PeakGame.set_player
    dsimp only
    omega

theorem handle_peak_card_players_length (g : PeakGame) :
    (PeakGame.handle_peak_card g).players.length = g.players.length := by
  unfold PeakGame.handle_peak_card
  dsimp only
  cases PeakGame.get_next_active_player_index g with
  | none => rfl
  | some j => simp [PeakGame.set_player, List.length_set]

theorem play_stage_players_length (g : PeakGame) (card : Card) :
    (PeakGame.play_stage g card).players.length = g.players.length := by
  by_cases hp : card.is_peak_card = true <;>
    by_cases hh : GameRules.is_high_value_card card = true <;>
      simp [PeakGame.play_stage, hp, hh, handle_peak_card_players_length,
        PeakGame.set_player, List.length_set]

theorem remove_card_hand_length_of_mem {p : Player} {card : Card}
    (hmem : card ∈ p.hand) :
    (p.remove_card card).2.hand.length = p.hand.length - 1 := by
  unfold Player.remove_card
  rw [if_pos hmem]
  exact List.length_erase_of_mem hmem

theorem play_stage_count (g : PeakGame) (card : Card)
    (hmem : card ∈ (PeakGame.get_current_player g).hand)
    (hidx : g.current_player_index < g.players.length) :
    card_count (PeakGame.play_stage g card) = card_count g := by
  have h1 : 0 < (PeakGame.get_current_player g).hand.length :=
    List.length_pos_of_mem hmem
  have hp1 := remove_card_hand_length_of_mem hmem
  have hset := hand_sizes_sum_set g.players g.current_player_index
    ((PeakGame.get_current_player g).remove_card card).2 hidx
  by_cases hp : card.is_peak_card = true <;>
    by_cases hh : GameRules.is_high_value_card card = true <;>
      simp only [PeakGame.play_stage, hp, hh, if_true, if_false,
        Bool.false_eq_true, handle_peak_card_count] <;>
    · rw [get_current_player_eq] at h1 hp1 hset ⊢
      unfold card_count PeakGame.set_player
      dsimp only
      simp only [List.length_append, List.length_cons, List.length_nil]
      omega

theorem card_count_set_player (g : PeakGame) (i : Nat) (p : Player)
    (h : i < g.players.length) :
    card_count (PeakGame.set_player g i p) +
        (g.players.getD i default_player).hand.length =
      card_count g + p.hand.length := by
  unfold card_count PeakGame.set_player
  dsimp only
  have := hand_sizes_sum_set g.players i p h
  omega

theorem deal_to_players_length (ps : List Player) :
    ∀ d, (PeakGame.deal_to_players ps d).1.length = ps.length := by
  induction ps with
  | nil => intro d; simp [PeakGame.deal_to_players]
  | cons p rest ih =>
    intro d
    simp [PeakGame.deal_to_players, ih]

theorem deal_to_players_count (ps : List Player) :
    ∀ d, hand_sizes_sum (PeakGame.deal_to_players ps d).1 +
        (PeakGame.deal_to_players ps d).2.length =
      hand_sizes_sum ps + d.length := by
  induction ps with
  | nil => intro d; simp [PeakGame.deal_to_players, hand_sizes_sum]
  | cons p rest ih =>
    intro d
    have h1 := deal_cards_total GameRules.is_valid_starting_hand_size d
    have h2 := ih (deal_cards d GameRules.is_valid_starting_hand_size).2
    simp only [PeakGame.deal_to_players, hand_sizes_sum, List.map_cons,
      List.sum_cons, add_cards_length] at h2 ⊢
    omega

theorem setup_game_preserves (g : PeakGame) :
    card_count (PeakGame.setup_game g) = card_count g ∧
    (PeakGame.setup_game g).players.length = g.players.length ∧
    (PeakGame.setup_game g).current_player_index = g.current_player_index := by
  refine ⟨?_, ?_, rfl⟩
  · unfold card_count PeakGame.setup_game
    dsimp only
    have := deal_to_players_count g.players g.deck
    omega
  · unfold PeakGame.setup_game
    dsimp only
    exact deal_to_players_length g.players g.deck

theorem draw_card_preserves (g : PeakGame) (pi : Nat)
    (hidx : g.current_player_index < g.players.length) :
    card_count (PeakGame.draw_card g pi).2 = card_count g ∧
    (PeakGame.draw_card g pi).2.players.length = g.players.length ∧
    (PeakGame.draw_card g pi).2.current_player_index <
      (PeakGame.draw_card g pi).2.players.length := by
  unfold PeakGame.draw_card
  by_cases h1 : pi = g.current_player_index
  · rw [if_neg (not_not_intro h1)]
    rcases List.eq_nil_or_concat g.deck with hnil | ⟨l, a, hla⟩
    · rw [hnil, deal_card_nil]
      exact ⟨rfl, rfl, hidx⟩
    · rw [List.concat_eq_append] at hla
      rw [hla, deal_card_concat]
      dsimp only
      have hlen' : (PeakGame.set_player { g with deck := l } g.current_player_index
          (PeakGame.penalize (PeakGame.get_current_player g) [a])).players.length =
          g.players.length := by
        simp [PeakGame.set_player, List.length_set]
      refine ⟨?_, ?_, ?_⟩
      · rw [card_count_next_player]
        have hset := hand_sizes_sum_set g.players g.current_player_index
          (PeakGame.penalize (PeakGame.get_current_player g) [a]) hidx
        rw [penalize_hand_length] at hset
        have hb : (PeakGame.get_current_player g).hand.length =
            (g.players.getD g.current_player_index default_player).hand.length := by
          rw [get_current_player_eq]
        unfold card_count PeakGame.set_player
        dsimp only
        rw [hla]
        simp only [List.length_append, List.length_cons, List.length_nil] at hset ⊢
        omega
      · rw [next_player_players_length]
        exact hlen'
      · rw [next_player_players_length]
        apply next_player_index_lt
        rw [hlen']
        omega
  · rw [if_pos h1]
    exact ⟨rfl, rfl, hidx⟩

theorem deal_card_some_length {d : List Card} {c : Card} {d' : List Card}
    (h : deal_card d = (some c, d')) : d'.length + 1 = d.length := by
  unfold deal_card at h
  split at h
  · simp at h
  · rename_i hne
    have h2 : d.dropLast = d' := congrArg Prod.snd h
    have hd : d ≠ [] := by simpa using hne
    have hpos : 0 < d.length := List.length_pos.mpr hd
    rw [← h2, List.length_dropLast]
    omega

theorem play_card_main_preserves (g : PeakGame) (card : Card)
    (h2 : card ∈ (PeakGame.get_current_player g).hand)
    (hidx : g.current_player_index < g.players.length) :
    card_count (PeakGame.play_card_main g card).2 = card_count g ∧
    (PeakGame.play_card_main g card).2.players.length = g.players.length ∧
    (PeakGame.play_card_main g card).2.current_player_index <
      (PeakGame.play_card_main g card).2.players.length := by
  have hst_count := play_stage_count g card h2 hidx
  have hst_len := play_stage_players_length g card
  have hst_idx := play_stage_index g card
  have hidx4 : (PeakGame.play_stage g card).current_player_index <
      (PeakGame.play_stage g card).players.length := by
    rw [hst_idx, hst_len]; exact hidx
  unfold PeakGame.play_card_main
  dsimp only
  split
  · split
    · refine ⟨?_, ?_, ?_⟩
      · rw [card_count_check_game_over]
        have hcs := card_count_set_player (PeakGame.play_stage g card)
          (PeakGame.play_stage g card).current_player_index
          { PeakGame.get_current_player (PeakGame.play_stage g card) with
              has_finished := true } hidx4
        dsimp only at hcs
        have hb : (PeakGame.get_current_player (PeakGame.play_stage g card)).hand.length =
            ((PeakGame.play_stage g card).players.getD
              (PeakGame.play_stage g card).current_player_index
                default_player).hand.length := by
          rw [get_current_player_eq]
        omega
      · rw [check_game_over_players_length]
        simp [PeakGame.set_player, List.length_set, hst_len]
      · rw [check_game_over_index, check_game_over_players_length]
        simpa [PeakGame.set_player, List.length_set] using hidx4
    · refine ⟨?_, ?_, ?_⟩
      · rw [card_count_next_player]
        split
        · rename_i c d' heq
          have hdl := deal_card_some_length heq
          have hcs := card_count_set_player
            { PeakGame.play_stage g card with deck := d' }
            (PeakGame.play_stage g card).current_player_index
            ((PeakGame.get_current_player (PeakGame.play_stage g card)).add_card c)
            hidx4
          dsimp only at hcs
          simp only [add_card_hand, List.length_append, List.length_cons,
            List.length_nil] at hcs
          have hb : (PeakGame.get_current_player
                (PeakGame.play_stage g card)).hand.length =
              ((PeakGame.play_stage g card).players.getD
                (PeakGame.play_stage g card).current_player_index
                  default_player).hand.length := by
            rw [get_current_player_eq]
          have hG : card_count ({ PeakGame.play_stage g card with deck := d' } :
                PeakGame) + 1 =
              card_count (PeakGame.play_stage g card) := by
            unfold card_count
            dsimp only
            omega
          dsimp only at hG
          omega
        · exact hst_count
      · rw [next_player_players_length]
        split
        · simp [PeakGame.set_player, List.length_set, hst_len]
        · exact hst_len
      · rw [next_player_players_length]
        apply next_player_index_lt
        split
        · simp only [PeakGame.set_player, List.length_set]
          simp [hst_len]
          omega
        · rw [hst_len]
          omega
  · refine ⟨?_, ?_, ?_⟩
    · rw [card_count_next_player]
      exact hst_count
    · rw [next_player_players_length]
      exact hst_len
    · rw [next_player_players_length]
      apply next_player_index_lt
      rw [hst_len]
      omega

theorem play_card_preserves (g : PeakGame) (pi : Nat) (card : Card)
    (hidx : g.current_player_index < g.players.length) :
    card_count (PeakGame.play_card g pi card).2 = card_count g ∧
    (PeakGame.play_card g pi card).2.players.length = g.players.length ∧
    (PeakGame.play_card g pi card).2.current_player_index <
      (PeakGame.play_card g pi card).2.players.length := by
  unfold PeakGame.play_card
  by_cases h1 : pi = g.current_player_index
  · rw [if_neg (not_not_intro h1)]
    by_cases h2 : card ∈ (PeakGame.get_current_player g).hand
    · rw [if_neg (not_not_intro h2)]
      by_cases h3 : GameRules.can_play_card card (PeakGame.get_last_played_card g) = true
      · rw [if_neg (by simp [h3])]
        exact play_card_main_preserves g card h2 hidx
      · have h3' : GameRules.can_play_card card (PeakGame.get_last_played_card g) = false :=
          Bool.eq_false_iff.mpr h3
        rw [if_pos (by simp [h3'])]
        exact ⟨rfl, rfl, hidx⟩
    · rw [if_pos h2]
      exact ⟨rfl, rfl, hidx⟩
  · rw [if_pos h1]
    exact ⟨rfl, rfl, hidx⟩

theorem hand_sizes_sum_mkPlayers (names : List String) :
    hand_sizes_sum (names.map mkPlayer) = 0 := by
  induction names with
  | nil => rfl
  | cons n t ih =>
    simp only [List.map_cons, hand_sizes_sum, List.sum_cons] at ih ⊢
    simp only [List.map_map] at ih
    simp [mkPlayer, ih]

/-- The game states reachable from construction through the public
operations `setup_game`, `play_card` and `draw_card`. Construction is a
successful `init` on any 20-card deck (any shuffle outcome). -/
inductive Reachable : PeakGame → Prop where
  | init (names : List String) (deck : List Card) (g : PeakGame) :
      PeakGame.init names deck = Except.ok g → deck.length = 20 → Reachable g
  | setup (g : PeakGame) : Reachable g → Reachable (PeakGame.setup_game g)
  | play (g : PeakGame) (pi : Nat) (card : Card) : Reachable g →
      Reachable (PeakGame.play_card g pi card).2
  | draw (g : PeakGame) (pi : Nat) : Reachable g →
      Reachable (PeakGame.draw_card g pi).2

theorem reachable_inv {g : PeakGame} (h : Reachable g) :
    card_count g = 20 ∧ g.current_player_index < g.players.length := by
  induction h with
  | init names deck g hok hd =>
    unfold PeakGame.init at hok
    split at hok
    · exact absurd hok (by simp)
    · rename_i h4
      have h4' := not_not.mp h4
      injection hok with hok
      subst hok
      constructor
      · unfold card_count
        dsimp only
        rw [hand_sizes_sum_mkPlayers, hd]
        rfl
      · simp only [List.length_map, GameRules.get_max_players] at h4' ⊢
        omega
  | setup g hr ih =>
    obtain ⟨ic, ii⟩ := ih
    have hp := setup_game_preserves g
    refine ⟨by rw [hp.1]; exact ic, ?_⟩
    rw [hp.2.2, hp.2.1]
    exact ii
  | play g pi card hr ih =>
    obtain ⟨ic, ii⟩ := ih
    have hp := play_card_preserves g pi card ii
    exact ⟨by rw [hp.1]; exact ic, hp.2.2⟩
  | draw g pi hr ih =>
    obtain ⟨ic, ii⟩ := ih
    have hp := draw_card_preserves g pi ii
    exact ⟨by rw [hp.1]; exact ic, hp.2.2⟩

/-- C4: in every state reachable from construction by the public
operations, deck + hands + discard pile together hold exactly 20 cards,
and each operation (`setup_game`, `play_card`, `draw_card`) preserves
that total — cards are never created or destroyed after the deck is
built. -/
theorem c4_conservation (g : PeakGame) (h : Reachable g) :
    card_count g = 20 ∧
    card_count (PeakGame.setup_game g) = 20 ∧
    (∀ (pi : Nat) (card : Card), card_count (PeakGame.play_card g pi card).2 = 20) ∧
    (∀ pi : Nat, card_count (PeakGame.draw_card g pi).2 = 20) := by
  obtain ⟨ic, ii⟩ := reachable_inv h
  refine ⟨ic, ?_, ?_, ?_⟩
  · rw [(setup_game_preserves g).1]
    exact ic
  · intro pi card
    rw [(play_card_preserves g pi card ii).1]
    exact ic
  · intro pi
    rw [(draw_card_preserves g pi ii).1]
    exact ic

/-- Witness for C4: the concrete fresh game holds exactly 20 cards. -/
theorem c4_conservation_witness : card_count initial_game = 20 :=
  (c4_conservation initial_game
    (Reachable.init ["A", "B", "C", "D"] create_deck initial_game rfl rfl)).1

/-! ## Peak-card penalty (C8) -/

theorem can_play_card_peak (card : Card) (l : Option Card)
    (hp : card.is_peak_card = true) :
    GameRules.can_play_card card l = true := by
  unfold GameRules.can_play_card
  simp [hp]

theorem can_finish_on_card_peak (card : Card) (b : Bool)
    (hp : card.is_peak_card = true) :
    GameRules.can_finish_on_card card b = false := by
  unfold GameRules.can_finish_on_card
  simp [hp]

theorem remove_card_disq (p : Player) (c : Card) :
    (p.remove_card c).2.is_disqualified = p.is_disqualified := by
  unfold Player.remove_card
  split <;> rfl

theorem remove_card_fin (p : Player) (c : Card) :
    (p.remove_card c).2.has_finished = p.has_finished := by
  unfold Player.remove_card
  split <;> rfl

theorem getD_set_self (l : List Player) (i : Nat) (p : Player)
    (h : i < l.length) : (l.set i p).getD i default_player = p := by
  simp [List.getD_eq_getElem?_getD, List.getElem?_set_self h]

theorem getD_set_ne (l : List Player) {i j : Nat} (p : Player)
    (h : i ≠ j) : (l.set i p).getD j default_player = l.getD j default_player := by
  simp [List.getD_eq_getElem?_getD, List.getElem?_set_ne h]

theorem add_card_disq_eq (p : Player) (c : Card) :
    (p.add_card c).is_disqualified =
      (p.is_disqualified || decide (p.hand.length + 1 > 20)) := by
  unfold Player.add_card
  dsimp only
  split
  · rename_i hc
    simp only [List.length_append, List.length_cons, List.length_nil] at hc
    simp [hc]
  · rename_i hc
    simp only [List.length_append, List.length_cons, List.length_nil] at hc
    have : ¬(p.hand.length + 1 > 20) := by omega
    simp [this]

theorem add_cards_disq_eq (cs : List Card) :
    ∀ p : Player, (p.add_cards cs).is_disqualified =
      (p.is_disqualified ||
        (decide (cs.length > 0) && decide (p.hand.length + cs.length > 20))) := by
  induction cs with
  | nil => intro p; simp [Player.add_cards]
  | cons c cs ih =>
    intro p
    show ((p.add_card c).add_cards cs).is_disqualified = _
    rw [ih, add_card_disq_eq, add_card_hand]
    simp only [List.length_append, List.length_cons, List.length_nil]
    rw [Bool.eq_iff_iff]
    cases hd : p.is_disqualified <;>
      simp only [hd, Bool.false_or, Bool.true_or, Bool.or_eq_true,
        Bool.and_eq_true, decide_eq_true_eq, Bool.true_eq, Bool.false_eq] <;>
      omega

theorem penalize_disq_eq (p : Player) (cs : List Card) :
    (PeakGame.penalize p cs).is_disqualified =
      (p.is_disqualified || decide (p.hand.length + cs.length > 20)) := by
  unfold PeakGame.penalize
  dsimp only
  split
  · rename_i hcond
    have h20 : p.hand.length + cs.length > 20 := by
      simpa [GameRules.should_disqualify_player, add_cards_length] using hcond
    simp [h20]
  · rename_i hcond
    have h20 : ¬(p.hand.length + cs.length > 20) := by
      simpa [GameRules.should_disqualify_player, add_cards_length] using hcond
    rw [add_cards_disq_eq]
    simp [h20]

theorem get_next_active_congr (g g' : PeakGame)
    (hlen : g'.players.length = g.players.length)
    (hidx : g'.current_player_index = g.current_player_index)
    (hact : ∀ k, (g'.players.getD k default_player).is_active =
      (g.players.getD k default_player).is_active) :
    PeakGame.get_next_active_player_index g' =
      PeakGame.get_next_active_player_index g := by
  unfold PeakGame.get_next_active_player_index
  dsimp only
  rw [hlen, hidx]
  congr 1
  funext i
  rw [hact]

theorem active_disq_false {p : Player} (h : p.is_active = true) :
    p.is_disqualified = false := by
  unfold Player.is_active at h
  cases hd : p.is_disqualified
  · rfl
  · rw [hd] at h
    simp at h

theorem play_stage_peak_next (g : PeakGame) (card : Card)
    (hp : card.is_peak_card = true) (j : Nat)
    (hj : PeakGame.get_next_active_player_index g = some j)
    (hidx : g.current_player_index < g.players.length) :
    (PeakGame.play_stage g card).players.getD j default_player =
      PeakGame.penalize
        ((g.players.set g.current_player_index
          ((PeakGame.get_current_player g).remove_card card).2).getD j
            default_player)
        (deal_cards g.deck GameRules.get_peak_card_penalty).1 ∧
    (PeakGame.play_stage g card).deck =
      (deal_cards g.deck GameRules.get_peak_card_penalty).2 := by
  have hjlt := (get_next_active_some hj).1
  have hh : GameRules.is_high_value_card card = false := by
    unfold GameRules.is_high_value_card
    simp [hp]
  have key : ∀ g2 : PeakGame,
      g2.players = g.players.set g.current_player_index
        ((PeakGame.get_current_player g).remove_card card).2 →
      g2.current_player_index = g.current_player_index →
      PeakGame.get_next_active_player_index g2 = some j := by
    intro g2 hps hci
    refine Eq.trans (get_next_active_congr g g2 ?_ ?_ ?_) hj
    · rw [hps, List.length_set]
    · exact hci
    · intro k
      rw [hps]
      by_cases hk : g.current_player_index = k
      · subst hk
        rw [getD_set_self _ _ _ hidx]
        unfold Player.is_active
        rw [remove_card_disq, remove_card_fin, get_current_player_eq]
      · rw [getD_set_ne _ _ hk]
  have hjG2 : PeakGame.get_next_active_player_index
      ⟨g.players.set g.current_player_index
          ((PeakGame.get_current_player g).remove_card card).2,
        g.deck, g.discard_pile ++ [card], g.current_player_index,
        g.game_over, g.winner, g.high_card_played_this_round,
        g.round_number⟩ = some j := key _ rfl rfl
  unfold PeakGame.play_stage
  dsimp only
  rw [if_pos hp, if_neg (by simp [hh])]
  unfold PeakGame.handle_peak_card
  simp only [PeakGame.set_player]
  rw [hjG2]
  dsimp only
  constructor
  · rw [getD_set_self]
    rw [List.length_set]
    exact hjlt
  · rfl

/-- State with A (current, hand Peak + one regular) about to play Peak,
B active with one card, C and D disqualified, and only two cards left in
the deck. -/
def g8 : PeakGame :=
  { players :=
      [{ name := "A", hand := [Card.mk 0 CardType.peak, Card.mk 1 CardType.regular],
         is_disqualified := false, has_finished := false },
       { name := "B", hand := [Card.mk 9 CardType.regular],
         is_disqualified := false, has_finished := false },
       { name := "C", hand := [], is_disqualified := true, has_finished := false },
       { name := "D", hand := [], is_disqualified := true, has_finished := false }]
    deck := [Card.mk 2 CardType.regular, Card.mk 3 CardType.regular]
    discard_pile := []
    current_player_index := 0
    game_over := false
    winner := none
    high_card_played_this_round := false
    round_number := 1 }

/-- C8 counterexample: in `g8` the current player legally plays a Peak
card, the next active player is player 1, yet player 1 receives only the
2 cards the deck still holds — not exactly 5 as the claim states. -/
theorem c8_peak_counterexample :
    (PeakGame.play_card g8 0 (Card.mk 0 CardType.peak)).1 = true ∧
    PeakGame.get_next_active_player_index g8 = some 1 ∧
    ((PeakGame.play_card g8 0 (Card.mk 0 CardType.peak)).2.players.getD 1
        default_player).hand.length ≠
      (g8.players.getD 1 default_player).hand.length + 5 :=
  ⟨by decide, by decide, by decide⟩

/-- C8 (amended): when the current player legally plays a Peak card, the
next active player found by the wrapping scan — possibly the current
player themself — receives exactly `min 5 deck.remaining` cards from the
deck (5 only when the deck still holds at least 5; in the wrap-to-self
case the played card has also left their hand, hence the index
correction), and that player ends the operation disqualified exactly
when their hand size then exceeds 20 cards. -/
theorem c8_peak_penalty_spec (g : PeakGame) (pi : Nat) (card : Card) (j : Nat)
    (h1 : pi = g.current_player_index)
    (h2 : card ∈ (PeakGame.get_current_player g).hand)
    (hp : card.is_peak_card = true)
    (hj : PeakGame.get_next_active_player_index g = some j)
    (hidx : g.current_player_index < g.players.length) :
    ((PeakGame.play_card g pi card).2.players.getD j default_player).hand.length +
        (if j = g.current_player_index then 1 else 0) =
      (g.players.getD j default_player).hand.length +
        min GameRules.get_peak_card_penalty g.deck.length ∧
    (((PeakGame.play_card g pi card).2.players.getD j
          default_player).is_disqualified = true ↔
      20 < ((PeakGame.play_card g pi card).2.players.getD j
          default_player).hand.length) := by
  obtain ⟨hstp, hstd⟩ := play_stage_peak_next g card hp j hj hidx
  have hpost : (PeakGame.play_card_main g card).2.players.getD j default_player =
      (PeakGame.play_stage g card).players.getD j default_player := by
    unfold PeakGame.play_card_main
    dsimp only
    split
    · rename_i hEmpty
      rw [if_neg (by simp [can_finish_on_card_peak card _ hp])]
      split
      · rename_i c d' heq
        by_cases hji : j = g.current_player_index
        · exfalso
          have hhand : (PeakGame.get_current_player
              (PeakGame.play_stage g card)).hand = [] := by
            by_cases hc : (PeakGame.get_current_player
                (PeakGame.play_stage g card)).hand = []
            · exact hc
            · exfalso
              have hpos := List.length_pos.mpr hc
              simp [Player.has_cards, hpos] at hEmpty
          have hcur : PeakGame.get_current_player (PeakGame.play_stage g card) =
              (PeakGame.play_stage g card).players.getD j default_player := by
            rw [get_current_player_eq, play_stage_index, ← hji]
          rw [hcur, hstp, penalize_hand] at hhand
          have hd0 := List.append_eq_nil.mp hhand
          have hdlen := congrArg List.length hd0.2
          rw [deal_cards_fst_length] at hdlen
          simp only [List.length_nil, GameRules.get_peak_card_penalty] at hdlen
          have hdeck : g.deck = [] := List.eq_nil_of_length_eq_zero (by omega)
          rw [hstd, hdeck] at heq
          have hempty2 : (deal_cards ([] : List Card)
              GameRules.get_peak_card_penalty).2 = [] := rfl
          rw [hempty2, deal_card_nil] at heq
          cases heq
        · rw [next_player_players]
          simp only [PeakGame.set_player]
          try dsimp only
          rw [getD_set_ne _ _ (by rw [play_stage_index]; exact Ne.symm hji)]
      · rw [next_player_players]
    · rw [next_player_players]
  rw [play_card_eq_main g pi card h1 h2 (can_play_card_peak card _ hp), hpost,
    hstp]
  have hP0disq : ((g.players.set g.current_player_index
      ((PeakGame.get_current_player g).remove_card card).2).getD j
        default_player).is_disqualified = false := by
    by_cases hji : j = g.current_player_index
    · rw [hji, getD_set_self _ _ _ hidx, remove_card_disq, get_current_player_eq]
      have hact := (get_next_active_some hj).2
      rw [hji] at hact
      exact active_disq_false hact
    · rw [getD_set_ne _ _ (Ne.symm hji)]
      exact active_disq_false (get_next_active_some hj).2
  constructor
  · rw [penalize_hand_length, deal_cards_fst_length]
    by_cases hji : j = g.current_player_index
    · rw [if_pos hji]
      have hrem : ((g.players.set g.current_player_index
          ((PeakGame.get_current_player g).remove_card card).2).getD j
            default_player).hand.length =
          (g.players.getD j default_player).hand.length - 1 := by
        rw [hji, getD_set_self _ _ _ hidx, remove_card_hand_length_of_mem h2,
          get_current_player_eq]
      have hpos : 0 < (g.players.getD j default_player).hand.length := by
        rw [hji, ← get_current_player_eq]
        exact List.length_pos_of_mem h2
      rw [hrem]
      omega
    · rw [if_neg hji, getD_set_ne _ _ (Ne.symm hji)]
      omega
  · rw [penalize_disq_eq, hP0disq, penalize_hand_length]
    simp

/-- Witness for C8 (amended): in `g8` the penalty goes to player 1, who
receives min 5 2 = 2 cards. -/
theorem c8_peak_penalty_witness :
    ((PeakGame.play_card g8 0 (Card.mk 0 CardType.peak)).2.players.getD 1
          default_player).hand.length +
        (if 1 = g8.current_player_index then 1 else 0) =
      (g8.players.getD 1 default_player).hand.length +
        min GameRules.get_peak_card_penalty g8.deck.length :=
  (c8_peak_penalty_spec g8 0 (Card.mk 0 CardType.peak) 1 rfl (by decide) rfl
    (by decide) (by decide)).1

/-! ## Failed finish attempts (C10) -/

theorem next_player_index_eq (g : PeakGame) :
    (PeakGame.next_player g).current_player_index =
      (PeakGame.next_index_loop g.players g.current_player_index
        g.players.length).1 := by
  unfold PeakGame.next_player
  dsimp only
  split
  · rw [check_game_over_index]
  · split <;> rfl

theorem deal_card_none_nil {d d' : List Card}
    (h : deal_card d = (none, d')) : d = [] := by
  unfold deal_card at h
  split at h
  · rename_i he
    simpa using he
  · simp at h
    exact h.1

/-- State for the C10 counterexample: player A holds only a Peak card,
every other player is disqualified, and the deck holds two cards, so the
Peak penalty wraps around to A themself. -/
def g10 : PeakGame :=
  { players :=
      [{ name := "A", hand := [Card.mk 0 CardType.peak],
         is_disqualified := false, has_finished := false },
       { name := "B", hand := [], is_disqualified := true, has_finished := false },
       { name := "C", hand := [], is_disqualified := true, has_finished := false },
       { name := "D", hand := [], is_disqualified := true, has_finished := false }]
    deck := [Card.mk 1 CardType.regular, Card.mk 2 CardType.regular]
    discard_pile := []
    current_player_index := 0
    game_over := false
    winner := none
    high_card_played_this_round := false
    round_number := 1 }

/-- C10 counterexample: in `g10` the current player legally plays their
last remaining card (a Peak card, which can never satisfy the finish
rule) with a non-empty deck, yet they are not dealt exactly one penalty
card: the Peak penalty wraps back to them and they end up with 2 cards. -/
theorem c10_counterexample :
    (PeakGame.get_current_player g10).hand = [Card.mk 0 CardType.peak] ∧
    GameRules.can_play_card (Card.mk 0 CardType.peak)
      (PeakGame.get_last_played_card g10) = true ∧
    GameRules.can_finish_on_card (Card.mk 0 CardType.peak)
      (PeakGame.play_card g10 0
        (Card.mk 0 CardType.peak)).2.high_card_played_this_round = false ∧
    g10.deck ≠ [] ∧
    (PeakGame.play_card g10 0 (Card.mk 0 CardType.peak)).1 = true ∧
    ((PeakGame.play_card g10 0 (Card.mk 0 CardType.peak)).2.players.getD 0
        default_player).hand.length ≠ 1 :=
  ⟨by decide, by decide, by decide, by decide, by decide, by decide⟩

/-- C10 (amended): whenever, after the played card leaves the hand and
any Peak handling runs, the acting player's hand is empty but the finish
rule rejects the card, `play_card` still returns true; the card stays on
top of the discard pile; the player receives exactly one penalty card
when the post-Peak-handling deck is non-empty and none otherwise; their
finished flag is not set; and the turn pointer moves to the index chosen
by the wrapping next-active-player scan. -/
theorem c10_failed_finish_spec (g : PeakGame) (pi : Nat) (card : Card)
    (h1 : pi = g.current_player_index)
    (h2 : card ∈ (PeakGame.get_current_player g).hand)
    (h3 : GameRules.can_play_card card (PeakGame.get_last_played_card g) = true)
    (hempty : (PeakGame.get_current_player (PeakGame.play_stage g card)).hand = [])
    (hfin : GameRules.can_finish_on_card card
      (PeakGame.play_stage g card).high_card_played_this_round = false)
    (hidx : g.current_player_index < g.players.length) :
    (PeakGame.play_card g pi card).1 = true ∧
    (PeakGame.play_card g pi card).2.discard_pile.getLast? = some card ∧
    ((PeakGame.play_card g pi card).2.players.getD g.current_player_index
        default_player).hand.length =
      (if (PeakGame.play_stage g card).deck = [] then 0 else 1) ∧
    ((PeakGame.play_card g pi card).2.players.getD g.current_player_index
        default_player).has_finished =
      (PeakGame.get_current_player (PeakGame.play_stage g card)).has_finished ∧
    (PeakGame.play_card g pi card).2.current_player_index =
      (PeakGame.next_index_loop (PeakGame.play_card g pi card).2.players
        g.current_player_index
        (PeakGame.play_card g pi card).2.players.length).1 := by
  have hidx4 : g.current_player_index <
      (PeakGame.play_stage g card).players.length := by
    rw [play_stage_players_length]
    exact hidx
  rw [play_card_eq_main g pi card h1 h2 h3]
  unfold PeakGame.play_card_main
  dsimp only
  rw [if_pos (by simp [Player.has_cards, hempty]), if_neg (by simp [hfin])]
  split
  · rename_i c d' heq
    have hne : ¬((PeakGame.play_stage g card).deck = []) := by
      intro hnil
      rw [hnil] at heq
      simp [deal_card_nil] at heq
    refine ⟨rfl, ?_, ?_, ?_, ?_⟩
    · try dsimp only
      rw [next_player_discard, set_player_discard]
      try dsimp only
      rw [play_stage_discard]
      simp
    · try dsimp only
      rw [next_player_players]
      simp only [PeakGame.set_player]
      try dsimp only
      rw [play_stage_index, getD_set_self _ _ _ hidx4, if_neg hne,
        add_card_hand, hempty]
      rfl
    · try dsimp only
      rw [next_player_players]
      simp only [PeakGame.set_player]
      try dsimp only
      rw [play_stage_index, getD_set_self _ _ _ hidx4, add_card_finished]
    · try dsimp only
      rw [next_player_index_eq, next_player_players]
      simp only [set_player_index]
      try dsimp only
      rw [play_stage_index]
  · rename_i heq
    have hnil : (PeakGame.play_stage g card).deck = [] := deal_card_none_nil heq
    refine ⟨rfl, ?_, ?_, ?_, ?_⟩
    · try dsimp only
      rw [next_player_discard, play_stage_discard]
      simp
    · try dsimp only
      rw [next_player_players, if_pos hnil]
      rw [show (PeakGame.play_stage g card).players.getD g.current_player_index
          default_player = PeakGame.get_current_player (PeakGame.play_stage g card)
        from by rw [get_current_player_eq, play_stage_index]]
      rw [hempty]
      rfl
    · try dsimp only
      rw [next_player_players]
      rw [show (PeakGame.play_stage g card).players.getD g.current_player_index
          default_player = PeakGame.get_current_player (PeakGame.play_stage g card)
        from by rw [get_current_player_eq, play_stage_index]]
    · try dsimp only
      rw [next_player_index_eq, next_player_players, play_stage_index]

/-- State for the C10 witness: player A's last card is a 7, which the
finish rule always rejects, and the deck is non-empty. -/
def g10w : PeakGame :=
  { players :=
      [{ name := "A", hand := [Card.mk 7 CardType.regular],
         is_disqualified := false, has_finished := false },
       { name := "B", hand := [Card.mk 9 CardType.regular],
         is_disqualified := false, has_finished := false },
       { name := "C", hand := [], is_disqualified := true, has_finished := false },
       { name := "D", hand := [], is_disqualified := true, has_finished := false }]
    deck := [Card.mk 2 CardType.regular]
    discard_pile := []
    current_player_index := 0
    game_over := false
    winner := none
    high_card_played_this_round := false
    round_number := 1 }

/-- Witness for C10 (amended): playing the last card 7 in `g10w` is a
failed finish attempt and the play still succeeds. -/
theorem c10_failed_finish_witness :
    (PeakGame.play_card g10w 0 (Card.mk 7 CardType.regular)).1 = true :=
  (c10_failed_finish_spec g10w 0 (Card.mk 7 CardType.regular) rfl (by decide)
    (by decide) (by decide) (by decide) (by decide)).1

end Peak
